import Mathlib

/-!
JSONLT JavaScript engine, shallowly embedded.

A shallow embedding of the table engine of the `jsonlt` JavaScript
package (`src/table.ts`, `src/types.ts`, `src/errors.ts`,
`src/constants.ts`), together with theorems checking the engine's
natural-language specification against the code.

The current source is an in-memory scaffold: `Table.open` performs no
file input/output (the file-reading step is an explicit TODO), `put`
and `delete` update only the in-memory `Map`, and `all()` returns the
map's values in insertion order.  The embedding reproduces exactly what
the TypeScript code does; definitions whose doc comment starts with
`Modelled from the spec:` embed contracts of the specification that the
source leaves unimplemented, for comparison against the code.
-/

/-- A JSON value, as produced by JavaScript's JSON layer.
Numbers are restricted to integers: JSONLT keys must be integers within
the safe range, and every numeric value the claims exercise is one. -/
inductive Json where
  | null : Json
  | bool : Bool → Json
  | num : Int → Json
  | str : String → Json
  | arr : List Json → Json
  | obj : List (String × Json) → Json

/-- A scalar key element (`types.ts` `KeyElement`): a string or an integer. -/
inductive KeyElement where
  | str : String → KeyElement
  | num : Int → KeyElement
  deriving DecidableEq, Repr

/-- A caller-facing key (`types.ts` `Key`): a scalar or a tuple of scalars. -/
inductive Key where
  | str : String → Key
  | num : Int → Key
  | tuple : List KeyElement → Key
  deriving DecidableEq, Repr

/-- A key specifier (`types.ts` `KeySpecifier`): one field name or a list of
field names. -/
inductive KeySpecifier where
  | field : String → KeySpecifier
  | fields : List String → KeySpecifier
  deriving DecidableEq, Repr

/-- A record (`types.ts` `Record`): a JSON object, embedded as its ordered
field list. -/
abbrev TRecord : Type := List (String × Json)

/-- JavaScript property access `record[field]`: `none` embeds `undefined`. -/
def lookupField (r : TRecord) (f : String) : Option Json :=
  (r.find? (fun e => e.1 == f)).map Prod.snd

/-- At runtime a `Key` is itself a JSON value; this is that inclusion. -/
def Key.toJson : Key → Json
  | .str s => .str s
  | .num n => .num n
  | .tuple es => .arr (es.map (fun e => match e with
      | .str s => Json.str s
      | .num n => Json.num n))

/-- Lower-case hexadecimal digit, for `\u00XX` escapes. -/
def hexDigit (n : Nat) : Char :=
  if n < 10 then Char.ofNat (48 + n) else Char.ofNat (87 + n)

/-- How `JSON.stringify` escapes one character inside a string literal. -/
def escapeJsonChar (c : Char) : String :=
  if c = '"' then "\\\""
  else if c = '\\' then "\\\\"
  else if c = '\x08' then "\\b"
  else if c = '\x09' then "\\t"
  else if c = '\x0a' then "\\n"
  else if c = '\x0c' then "\\f"
  else if c = '\x0d' then "\\r"
  else if c.toNat < 32 then
    "\\u00" ++ String.mk [hexDigit (c.toNat / 16), hexDigit (c.toNat % 16)]
  else String.singleton c

/-- The function `JSON.stringify` on a string value: quotes plus escaped characters. -/
def quoteJsonString (s : String) : String :=
  "\"" ++ String.join (s.toList.map escapeJsonChar) ++ "\""

mutual

/-- The function `JSON.stringify` on a (defined) JSON value.  Numbers print as
JavaScript `String(n)` does for integers: their decimal representation. -/
def jsonStringify : Json → String
  | .null => "null"
  | .bool true => "true"
  | .bool false => "false"
  | .num n => toString n
  | .str s => quoteJsonString s
  | .arr xs => "[" ++ stringifyElems xs ++ "]"
  | .obj fs => "\x7b" ++ stringifyFields fs ++ "\x7d"

/-- Comma-separated `JSON.stringify` of array elements. -/
def stringifyElems : List Json → String
  | [] => ""
  | [x] => jsonStringify x
  | x :: y :: xs => jsonStringify x ++ "," ++ stringifyElems (y :: xs)

/-- Comma-separated `"key":value` pairs of an object. -/
def stringifyFields : List (String × Json) → String
  | [] => ""
  | [(k, v)] => quoteJsonString k ++ ":" ++ jsonStringify v
  | (k, v) :: f :: fs => quoteJsonString k ++ ":" ++ jsonStringify v ++ "," ++ stringifyFields (f :: fs)

end

/-- Embeds `Table.serializeKey` (src/src/table.ts:75-84) on a runtime key value:
`typeof key === "string"` returns the string itself, `typeof key ===
"number"` returns JavaScript `String(key)` (the decimal representation for
integers), and any other value — the tuple case in the source — falls
through to `JSON.stringify(key)`. -/
def serializeKey : Json → String
  | .str s => s
  | .num n => toString n
  | v => jsonStringify v

/-- The runtime value produced by `Table.extractKeyFromRecord`
(src/src/table.ts:128-135): a scalar specifier reads `record[field]`
(possibly `undefined`, embedded as `none`); a tuple specifier builds the
array `specifier.map((field) => record[field])`, whose elements may
individually be `undefined`. -/
inductive ExtractedKey where
  | scalar : Option Json → ExtractedKey
  | tuple : List (Option Json) → ExtractedKey

/-- Embeds `Table.extractKeyFromRecord` (src/src/table.ts:128-135).  The source
casts without validating (validation is a TODO there). -/
def extractKeyFromRecord (spec : KeySpecifier) (r : TRecord) : ExtractedKey :=
  match spec with
  | .field f => .scalar (lookupField r f)
  | .fields fs => .tuple (fs.map (fun f => lookupField r f))

/-- Applies `serializeKey` to an extracted key, as `put` does.
`JSON.stringify(undefined)` is `undefined` (embedded as `none`), so a
missing scalar key field yields the JavaScript `undefined` map key;
inside an array `JSON.stringify` renders an `undefined` element as
`null`. -/
def serializeExtractedKey : ExtractedKey → Option String
  | .scalar none => none
  | .scalar (some v) => some (serializeKey v)
  | .tuple vs => some (serializeKey (Json.arr (vs.map (fun ov => ov.getD Json.null))))

/-- The error taxonomy of `src/src/errors.ts`, carrying the fields the
engine contract names. -/
inductive JsonltError where
  | parseError (message : String) (line : Nat) (column : Option Nat)
  | keyError (message : String) (field : Option String)
  | validationError (message : String) (field : Option String)
  | ioError (message : String) (path : String)
  | lockError (message : String) (path : String) (timeout : Option Nat)
  | limitError (limitName : String) (actual : Nat) (maximum : Nat)
  deriving DecidableEq, Repr

/-- Embeds `TableOptions` of `types.ts`: every field optional (`none` = omitted). -/
structure TableOptions where
  create : Option Bool
  readOnly : Option Bool
  key : Option KeySpecifier
  autoReload : Option Bool
  lockTimeout : Option Nat
  deriving DecidableEq, Repr

/-- The fully resolved options object built at the top of `Table.open`
(src/src/table.ts:56-62). -/
structure ResolvedOptions where
  create : Bool
  readOnly : Bool
  key : KeySpecifier
  autoReload : Bool
  lockTimeout : Nat
  deriving DecidableEq, Repr

/-- The option-defaulting at src/src/table.ts:56-62: `??` fallbacks
`create: false`, `readOnly: false`, `key: "id"`, `autoReload: false`,
`lockTimeout: 5000`. -/
def resolveOptions (o : TableOptions) : ResolvedOptions :=
  ⟨o.create.getD false, o.readOnly.getD false, o.key.getD (KeySpecifier.field "id"),
    o.autoReload.getD false, o.lockTimeout.getD 5000⟩

/-- The table's backing store `Map<string, Record>`, entries in insertion
order.  A `none` key embeds the JavaScript `undefined` map key that arises
when scalar key extraction hits a missing field. -/
abbrev EntryMap : Type := List (Option String × TRecord)

/-- JavaScript `Map.prototype.get`. -/
def mapGet (m : EntryMap) (k : Option String) : Option TRecord :=
  (m.find? (fun e => e.1 == k)).map Prod.snd

/-- JavaScript `Map.prototype.has`. -/
def mapHas (m : EntryMap) (k : Option String) : Bool :=
  (m.find? (fun e => e.1 == k)).isSome

/-- JavaScript `Map.prototype.set`: an existing key is updated in place,
keeping its insertion position; a new key is appended at the end. -/
def mapSet (m : EntryMap) (k : Option String) (v : TRecord) : EntryMap :=
  if mapHas m k then m.map (fun e => if e.1 == k then (k, v) else e)
  else m ++ [(k, v)]

/-- JavaScript `Map.prototype.delete`, keeping the other entries in order. -/
def mapDelete (m : EntryMap) (k : Option String) : EntryMap :=
  m.filter (fun e => !(e.1 == k))

/-- The `Table` class state (src/src/table.ts:27-43): file path, key
specifier, the in-memory record map, and the resolved options. -/
structure Table where
  filePath : String
  keySpecifier : KeySpecifier
  records : EntryMap
  options : ResolvedOptions

/-- Embeds `Table.open` (src/src/table.ts:55-69).  The source resolves the option
defaults and constructs a table over an empty map: the file-reading step is
an explicit TODO, no file input/output happens, and in particular the
`IOError` path announced by the method's doc comment is never reached — the
promise always resolves, embedded as always returning `Except.ok`. -/
def Table.open (filePath : String) (options : TableOptions) : Except JsonltError Table :=
  let resolvedOptions := resolveOptions options
  Except.ok ⟨filePath, resolvedOptions.key, [], resolvedOptions⟩

/-- Embeds `Table.get` (src/src/table.ts:92-94). -/
def Table.get (t : Table) (key : Key) : Option TRecord :=
  mapGet t.records (some (serializeKey key.toJson))

/-- Embeds `Table.has` (src/src/table.ts:102-104). -/
def Table.has (t : Table) (key : Key) : Bool :=
  mapHas t.records (some (serializeKey key.toJson))

/-- Embeds `Table.put` (src/src/table.ts:117-122): extracts the key and stores the
record in the in-memory map.  No read-only check, no validation, no limit
check and no file append happen (all are TODO in the source); the promise
always resolves. -/
def Table.put (t : Table) (record : TRecord) : Except JsonltError Table :=
  let key := extractKeyFromRecord t.keySpecifier record
  Except.ok ⟨t.filePath, t.keySpecifier,
    mapSet t.records (serializeExtractedKey key) record, t.options⟩

/-- Embeds `Table.delete` (src/src/table.ts:146-155): returns `false` when the
serialized key is absent, otherwise removes the entry and returns `true`
(the tombstone append is TODO; no read-only check). -/
def Table.delete (t : Table) (key : Key) : Except JsonltError (Bool × Table) :=
  let serialized := some (serializeKey key.toJson)
  if !(mapHas t.records serialized) then
    Except.ok (false, t)
  else
    Except.ok (true, ⟨t.filePath, t.keySpecifier, mapDelete t.records serialized, t.options⟩)

/-- Embeds `Table.values` (src/src/table.ts:162-164): the map's values in
insertion order. -/
def Table.values (t : Table) : List TRecord := t.records.map Prod.snd

/-- Embeds `Table.keys` (src/src/table.ts:174-176): the map's keys — the
serialized strings — in insertion order. -/
def Table.keys (t : Table) : List (Option String) := t.records.map Prod.fst

/-- Embeds `Table.entries` (src/src/table.ts:183-185). -/
def Table.entries (t : Table) : EntryMap := t.records

/-- Embeds `Table.all` (src/src/table.ts:192-195): literally
`Array.from(this.records.values())`, i.e. insertion order — the key
ordering required by the spec is an explicit TODO in the source. -/
def Table.all (t : Table) : List TRecord := t.records.map Prod.snd

/-- The `size` getter (src/src/table.ts:200-202). -/
def Table.size (t : Table) : Nat := t.records.length

/-- Embeds `Table.count` (src/src/table.ts:207-209), an alias for `size`. -/
def Table.count (t : Table) : Nat := t.records.length

/-- The `path` getter (src/src/table.ts:214-216). -/
def Table.path (t : Table) : String := t.filePath

/-- The `isReadOnly` getter (src/src/table.ts:221-223). -/
def Table.isReadOnly (t : Table) : Bool := t.options.readOnly

/-- The `key` getter (src/src/table.ts:228-230). -/
def Table.key (t : Table) : KeySpecifier := t.keySpecifier

/-- Embeds `Table.find` (src/src/table.ts:238-246): records matching a predicate,
in insertion order. -/
def Table.find (t : Table) (predicate : TRecord → Bool) : List TRecord :=
  (t.records.map Prod.snd).filter predicate

/-- Embeds `Table.findOne` (src/src/table.ts:254-261). -/
def Table.findOne (t : Table) (predicate : TRecord → Bool) : Option TRecord :=
  (t.records.map Prod.snd).find? predicate

/-- Embeds `Table.clear` (src/src/table.ts:268-271): clears the in-memory map; the
tombstone appends and the read-only check are TODO, and the promise always
resolves. -/
def Table.clear (t : Table) : Except JsonltError Table :=
  Except.ok ⟨t.filePath, t.keySpecifier, [], t.options⟩

/-- Embeds `Table.compact` (src/src/table.ts:279-281): the body is a bare TODO —
nothing changes and the promise resolves. -/
def Table.compact (t : Table) : Except JsonltError Table :=
  Except.ok t

/-- Constant `SPEC_VERSION` (src/constants.ts, given as src/unnamed/part_002). -/
def SPEC_VERSION : Nat := 1

/-- Constant `MAX_KEY_LENGTH` (src/constants.ts). -/
def MAX_KEY_LENGTH : Nat := 1024

/-- Constant `MAX_RECORD_SIZE` (src/constants.ts). -/
def MAX_RECORD_SIZE : Nat := 1048576

/-- Constant `MAX_NESTING_DEPTH` (src/constants.ts). -/
def MAX_NESTING_DEPTH : Nat := 64

/-- Constant `MAX_TUPLE_ELEMENTS` (src/constants.ts). -/
def MAX_TUPLE_ELEMENTS : Nat := 16

/-- Constant `MIN_SAFE_INTEGER` (src/constants.ts). -/
def MIN_SAFE_INTEGER : Int := -9007199254740991

/-- Constant `MAX_SAFE_INTEGER` (src/constants.ts). -/
def MAX_SAFE_INTEGER : Int := 9007199254740991

/-- Constant `DEFAULT_LOCK_TIMEOUT` (src/constants.ts). -/
def DEFAULT_LOCK_TIMEOUT : Nat := 5000

/-- Modelled from the spec: key equality of the §3 data model.  The source
has no key-equality function of its own — its point operations identify
keys through `serializeKey` — so equality is taken from the spec's words:
integers compare numerically, strings byte-lexicographically, an integer
never equals a string, tuples compare element-wise, and a bare scalar is
distinct from a one-element tuple. -/
def specKeyEq : Key → Key → Bool
  | .str a, .str b => a == b
  | .num a, .num b => a == b
  | .tuple as, .tuple bs =>
      as.length == bs.length &&
      (List.zip as bs).all (fun p => match p with
        | (.str x, .str y) => x == y
        | (.num x, .num y) => x == y
        | _ => false)
  | _, _ => false

/-- Modelled from the spec: the element comparison inside `compareKeys`
(§3, §4.2) — the source's key ordering is unimplemented (the `all()`
ordering is a TODO).  Integers numerically, strings byte-lexicographically,
numbers before strings. -/
def compareKeyElements : KeyElement → KeyElement → Ordering
  | .num a, .num b => compare a b
  | .str a, .str b => compare a b
  | .num _, .str _ => Ordering.lt
  | .str _, .num _ => Ordering.gt

/-- Modelled from the spec: tuple comparison of §3 — element-wise,
shorter-prefix-first on equal prefixes. -/
def compareElementLists : List KeyElement → List KeyElement → Ordering
  | [], [] => Ordering.eq
  | [], _ :: _ => Ordering.lt
  | _ :: _, [] => Ordering.gt
  | a :: as, b :: bs =>
      match compareKeyElements a b with
      | Ordering.eq => compareElementLists as bs
      | o => o

/-- Modelled from the spec: `compareKeys(a, b)` of §4.2, the total order of
§3, which the source never implements.  The spec fixes no order between a
bare scalar and a tuple (they are distinct shapes); scalars are placed
before tuples here, and no theorem below depends on that choice. -/
def compareKeys : Key → Key → Ordering
  | .str a, .str b => compare a b
  | .num a, .num b => compare a b
  | .num _, .str _ => Ordering.lt
  | .str _, .num _ => Ordering.gt
  | .tuple as, .tuple bs => compareElementLists as bs
  | .tuple _, _ => Ordering.gt
  | _, .tuple _ => Ordering.lt

/-- After filtering out every entry whose key matches, `find?` for that key
finds nothing. -/
theorem find?_filter_beq_none (l : EntryMap) (k : Option String) :
    (l.filter (fun e => !(e.1 == k))).find? (fun e => e.1 == k) = none := by
  induction l with
  | nil => rfl
  | cons a l ih =>
    by_cases h : (a.1 == k) = true
    · simp [List.filter_cons, h, ih]
    · simp [List.filter_cons, List.find?_cons, h, ih]

/-- Deleting a key from the map makes `mapGet` miss it. -/
theorem mapGet_mapDelete (m : EntryMap) (k : Option String) :
    mapGet (mapDelete m k) k = none := by
  unfold mapGet mapDelete
  rw [find?_filter_beq_none]
  rfl

/-- Deleting a key from the map makes `mapHas` false. -/
theorem mapHas_mapDelete (m : EntryMap) (k : Option String) :
    mapHas (mapDelete m k) k = false := by
  unfold mapHas mapDelete
  rw [find?_filter_beq_none]
  rfl

/-- Unwraps `Except.ok`, with an inert placeholder table for the error case
(never hit: every operation of the embedded scaffold resolves). -/
def okTable (e : Except JsonltError Table) : Table :=
  match e with
  | .ok t => t
  | .error _ => ⟨"", KeySpecifier.field "id", [], ⟨false, false, KeySpecifier.field "id", false, 5000⟩⟩

/-- Projection to a decidable observation: the stringified `tag` field. -/
def tagOf (r : TRecord) : Option String :=
  (lookupField r "tag").map jsonStringify

/-- Projection to a decidable observation: the stringified `v` field. -/
def vOf (r : TRecord) : Option String :=
  (lookupField r "v").map jsonStringify

/-- A record keyed by the string `"5"`. -/
def recStr5 : TRecord := [("id", Json.str "5"), ("tag", Json.str "string-keyed")]

/-- A record keyed by the integer `5`. -/
def recInt5 : TRecord := [("id", Json.num 5), ("tag", Json.str "int-keyed")]

/-- A table holding only `recStr5`, keyed by field `id`. -/
def tStr5 : Table :=
  okTable ((okTable (Table.open "t.jsonlt"
    ⟨some true, none, some (KeySpecifier.field "id"), none, none⟩)).put recStr5)

/-- The table `tStr5` after `put recInt5` — a put keyed by the integer 5. -/
def tInt5 : Table := okTable (tStr5.put recInt5)

/-- Claim C1: the table's point operations identify keys through
`serializeKey`, which maps the integer `5` and the string `"5"` to the same
map key — so a put of a record keyed by the integer 5 overwrites the
table's entry for the string key `"5"`, contradicting the §3 data model in
which an integer key and a string key are always distinct.  Concretely:
`tStr5` holds `recStr5` under the string key `"5"`; after
`put recInt5` (keyed by the integer 5) the entry for the string key `"5"`
has become `recInt5`. -/
theorem claim_C1_key_equality_collision :
    serializeKey (Json.num 5) = serializeKey (Json.str "5") ∧
    specKeyEq (Key.num 5) (Key.str "5") = false ∧
    Table.get tStr5 (Key.str "5") = some recStr5 ∧
    Table.put tStr5 recInt5 = Except.ok tInt5 ∧
    Table.get tInt5 (Key.str "5") = some recInt5 ∧
    (Table.get tInt5 (Key.str "5")).map tagOf ≠ (Table.get tStr5 (Key.str "5")).map tagOf :=
  ⟨rfl, rfl, rfl, rfl, rfl, by decide⟩

/-- Claim C2: contrary to the claim, `Table.open` never fails for an absent
file.  The source's file-reading step is an explicit TODO: `open` consults
no file system at all, so with `create: false` (and with `create` omitted)
it resolves to a fresh empty `Table` instead of rejecting with an `IOError`
carrying the path. -/
theorem claim_C2_open_never_fails :
    Table.open "missing.jsonlt" ⟨some false, none, none, none, none⟩ =
      Except.ok ⟨"missing.jsonlt", KeySpecifier.field "id", [],
        ⟨false, false, KeySpecifier.field "id", false, 5000⟩⟩ ∧
    (∀ filePath options, ∃ t, Table.open filePath options = Except.ok t) :=
  ⟨rfl, fun _ _ => ⟨_, rfl⟩⟩

/-- A table opened with `readOnly: true`, keyed by field `id`. -/
def tRO : Table :=
  okTable (Table.open "ro.jsonlt"
    ⟨none, some true, some (KeySpecifier.field "id"), none, none⟩)

/-- A record used against the read-only table. -/
def recR1 : TRecord := [("id", Json.str "r1"), ("v", Json.num 1)]

/-- The read-only table after a (supposedly forbidden) `put`. -/
def tRO1 : Table := okTable (tRO.put recR1)

/-- Claim C3: contrary to the claim, nothing in the source consults
`readOnly`.  On a table opened with `readOnly: true`, `put` resolves and
inserts the record, `delete` resolves and removes it, `clear` resolves and
empties the map, and `compact` resolves — none of them fails with a
`ValidationError`, and each of `put`/`delete`/`clear` changes the state. -/
theorem claim_C3_readonly_unenforced :
    Table.isReadOnly tRO = true ∧
    Table.put tRO recR1 = Except.ok tRO1 ∧
    Table.size tRO1 = 1 ∧
    Table.get tRO1 (Key.str "r1") = some recR1 ∧
    Table.delete tRO1 (Key.str "r1") = Except.ok (true, tRO) ∧
    Table.clear tRO1 = Except.ok tRO ∧
    Table.compact tRO1 = Except.ok tRO1 :=
  ⟨rfl, rfl, rfl, rfl, rfl, rfl, rfl⟩

/-- A record keyed by the string `"b"`, inserted first. -/
def recKeyB : TRecord := [("id", Json.str "b"), ("n", Json.num 1)]

/-- A record keyed by the string `"a"`, inserted second. -/
def recKeyA : TRecord := [("id", Json.str "a"), ("n", Json.num 2)]

/-- A table into which `recKeyB` and then `recKeyA` were put. -/
def tBA : Table :=
  okTable ((okTable ((okTable (Table.open "ba.jsonlt"
    ⟨some true, none, some (KeySpecifier.field "id"), none, none⟩)).put recKeyB)).put recKeyA)

/-- Claim C4: contrary to the claim, `all()` returns the live records in
insertion order, not sorted by the §3/§4.2 key order (the ordering is an
explicit TODO in the source).  With keys inserted in the order `"b"`,
`"a"`, the output keys read `"b"`, `"a"` although `"b"` is strictly greater
than `"a"` in the spec's order — the sorted output would be the reverse. -/
theorem claim_C4_all_not_sorted :
    Table.all tBA = [recKeyB, recKeyA] ∧
    (Table.all tBA).map (fun r => lookupField r "id") =
      [some (Json.str "b"), some (Json.str "a")] ∧
    compareKeys (Key.str "b") (Key.str "a") = Ordering.gt :=
  ⟨rfl, rfl, by decide⟩

/-- Claim C5: for every table state and key, `delete` of an absent key
returns `false` with the state unchanged, and `delete` of a present key
returns `true`, after which `get` is `undefined` and `has` is false. -/
theorem claim_C5_delete_semantics (t : Table) (k : Key) :
    (t.has k = false → t.delete k = Except.ok (false, t)) ∧
    (t.has k = true → ∃ t2, t.delete k = Except.ok (true, t2) ∧
      t2.get k = none ∧ t2.has k = false) := by
  constructor
  · intro h
    unfold Table.has at h
    unfold Table.delete
    simp [h]
  · intro h
    unfold Table.has at h
    refine ⟨⟨t.filePath, t.keySpecifier,
      mapDelete t.records (some (serializeKey k.toJson)), t.options⟩, ?_, ?_, ?_⟩
    · unfold Table.delete
      simp [h]
    · unfold Table.get
      exact mapGet_mapDelete t.records (some (serializeKey k.toJson))
    · unfold Table.has
      exact mapHas_mapDelete t.records (some (serializeKey k.toJson))

/-- A one-record table used to instantiate `claim_C5_delete_semantics`. -/
def tW : Table :=
  okTable ((okTable (Table.open "w.jsonlt"
    ⟨some true, none, some (KeySpecifier.field "id"), none, none⟩)).put
      [("id", Json.str "a")])

/-- Witness for claim C5 at a concrete table: key `"zz"` is absent (delete
returns `false`, table unchanged), key `"a"` is present (delete returns
`true`, the key then unreadable). -/
theorem claim_C5_delete_semantics_witness :
    (Table.delete tW (Key.str "zz") = Except.ok (false, tW)) ∧
    (∃ t2, Table.delete tW (Key.str "a") = Except.ok (true, t2) ∧
      Table.get t2 (Key.str "a") = none ∧ Table.has t2 (Key.str "a") = false) :=
  ⟨(claim_C5_delete_semantics tW (Key.str "zz")).1 (by decide),
   (claim_C5_delete_semantics tW (Key.str "a")).2 (by decide)⟩

/-- A record keyed by the string `"5"`, the table's pre-existing entry. -/
def recOld5 : TRecord := [("id", Json.str "5"), ("v", Json.str "old")]

/-- First of two records keyed by the integer `5`. -/
def recFirst5 : TRecord := [("id", Json.num 5), ("v", Json.str "first")]

/-- Second of two records keyed by the integer `5`. -/
def recSecond5 : TRecord := [("id", Json.num 5), ("v", Json.str "second")]

/-- A table holding `recOld5` under the string key `"5"`. -/
def tLWW0 : Table :=
  okTable ((okTable (Table.open "lww.jsonlt"
    ⟨some true, none, some (KeySpecifier.field "id"), none, none⟩)).put recOld5)

/-- The table after `put recFirst5` then `put recSecond5`. -/
def tLWW2 : Table := okTable ((okTable (tLWW0.put recFirst5)).put recSecond5)

/-- Claim C6: the last-write-wins half holds — after two puts whose
extracted keys are both the integer 5, `get` of that key returns the second
record — but, contrary to the claim, the entries of other keys are not all
unchanged: the string key `"5"` is a different key in the §3 data model,
and its entry, `recOld5` before the puts, has been overwritten with
`recSecond5`, because `serializeKey` collides the integer 5 with the string
`"5"`. -/
theorem claim_C6_lww_clobbers_other_key :
    extractKeyFromRecord (KeySpecifier.field "id") recFirst5 =
      ExtractedKey.scalar (some (Json.num 5)) ∧
    extractKeyFromRecord (KeySpecifier.field "id") recSecond5 =
      ExtractedKey.scalar (some (Json.num 5)) ∧
    Table.get tLWW2 (Key.num 5) = some recSecond5 ∧
    specKeyEq (Key.str "5") (Key.num 5) = false ∧
    Table.get tLWW0 (Key.str "5") = some recOld5 ∧
    Table.get tLWW2 (Key.str "5") = some recSecond5 ∧
    (Table.get tLWW0 (Key.str "5")).map vOf ≠ (Table.get tLWW2 (Key.str "5")).map vOf :=
  ⟨rfl, rfl, rfl, rfl, rfl, rfl, by decide⟩

/-- The record of Scenario A. -/
def recAlice : TRecord := [("id", Json.str "u1"), ("name", Json.str "Alice")]

/-- Scenario A's freshly opened table. -/
def tScenA0 : Table :=
  okTable (Table.open "users.jsonlt"
    ⟨some true, none, some (KeySpecifier.field "id"), none, none⟩)

/-- Scenario A's table after the put. -/
def tScenA1 : Table := okTable (tScenA0.put recAlice)

/-- Claim C7: Scenario A — opening with `{create: true, key: "id"}`, then
`put({id:"u1", name:"Alice"})`, yields a table where `get("u1")` returns
that record and `size` is 1. -/
theorem claim_C7_scenario_a :
    Table.open "users.jsonlt"
      ⟨some true, none, some (KeySpecifier.field "id"), none, none⟩ =
        Except.ok tScenA0 ∧
    Table.put tScenA0 recAlice = Except.ok tScenA1 ∧
    Table.get tScenA1 (Key.str "u1") = some recAlice ∧
    Table.size tScenA1 = 1 :=
  ⟨rfl, rfl, rfl, rfl⟩

/-- Claim C8: the exported limit constants equal the spec's mandatory
floors exactly — key length 1024, record size 1048576, nesting depth 64,
tuple elements 16, safe integers ±(2^53 − 1) — and the default lock
timeout is 5000 ms, both as the `DEFAULT_LOCK_TIMEOUT` constant and as the
value `open` resolves when `lockTimeout` is omitted. -/
theorem claim_C8_limit_constants :
    MAX_KEY_LENGTH = 1024 ∧
    MAX_RECORD_SIZE = 1048576 ∧
    MAX_NESTING_DEPTH = 64 ∧
    MAX_TUPLE_ELEMENTS = 16 ∧
    MIN_SAFE_INTEGER = -(2 ^ 53 - 1) ∧
    MAX_SAFE_INTEGER = 2 ^ 53 - 1 ∧
    DEFAULT_LOCK_TIMEOUT = 5000 ∧
    (∀ c ro k ar, (resolveOptions ⟨c, ro, k, ar, none⟩).lockTimeout = DEFAULT_LOCK_TIMEOUT) ∧
    (∀ p c ro k ar, (Table.open p ⟨c, ro, k, ar, none⟩).map (fun t => t.options.lockTimeout) =
      Except.ok 5000) :=
  ⟨rfl, rfl, rfl, rfl, by norm_num [MIN_SAFE_INTEGER], by norm_num [MAX_SAFE_INTEGER], rfl,
   fun _ _ _ _ => rfl, fun _ _ _ _ _ => rfl⟩

/-- A table into which records keyed by the string `"u1"`, the integer `5`
and the tuple `["a", 1]` were put, in that order. -/
def tKeys : Table :=
  okTable ((okTable ((okTable ((okTable (Table.open "keys.jsonlt"
    ⟨some true, none, some (KeySpecifier.field "id"), none, none⟩)).put
      [("id", Json.str "u1")])).put
      [("id", Json.num 5)])).put
      [("id", Json.arr [Json.str "a", Json.num 1])])

/-- Claim C9: `keys()` yields the internal string serialization of each
key, not the original `Key` value — a string key unchanged, the integer 5
as `"5"`, and the tuple `["a", 1]` as its JSON array text. -/
theorem claim_C9_keys_are_serialized_strings :
    Table.keys tKeys = [some "u1", some "5", some "[\"a\",1]"] ∧
    serializeKey (Json.str "u1") = "u1" ∧
    serializeKey (Json.num 5) = "5" ∧
    serializeKey (Json.arr [Json.str "a", Json.num 1]) = "[\"a\",1]" :=
  ⟨rfl, rfl, rfl, rfl⟩

/-- The table opened without a `key` option, after one put. -/
def tNoKey : Table :=
  okTable ((okTable (Table.open "nokey.jsonlt"
    ⟨some true, none, none, none, none⟩)).put [("id", Json.str "x")])

/-- Claim C10: when the caller omits the `key` option, `open` does not
fail: it resolves the key specifier to the single field name `"id"`, the
opened table's `key` property is `"id"`, and puts extract the key from the
record's `id` field. -/
theorem claim_C10_key_defaults_to_id :
    (∀ p c ro ar lt, (Table.open p ⟨c, ro, none, ar, lt⟩).map Table.key =
      Except.ok (KeySpecifier.field "id")) ∧
    (∀ r, extractKeyFromRecord (KeySpecifier.field "id") r =
      ExtractedKey.scalar (lookupField r "id")) ∧
    Table.key tNoKey = KeySpecifier.field "id" ∧
    Table.get tNoKey (Key.str "x") = some [("id", Json.str "x")] :=
  ⟨fun _ _ _ _ _ => rfl, fun _ => rfl, rfl, rfl⟩
